import Mathlib

/-!
Verification development for the DijkstraMap Godot binding
(`dijkstra-map-gd/src/lib.rs`) and the core pathfinding engine it wraps.

The binding layer (option parsing, error codes, query wrappers) is
embedded directly from the Rust source.  The core engine (point store,
multi-source Dijkstra solve, query layer, grid generator) lives in the
`dijkstra_map` crate, whose source is not part of this tree; those
definitions are modelled from the specification and are marked
`Modelled from the spec:` in their doc comments.

Machine floats (`f32`) are modelled as exact extended rationals with a
NaN element (`GFloat`): the behaviours under scrutiny only add,
multiply and compare non-negative values, where exact rational
arithmetic agrees with the float semantics the source relies on
(infinity propagation, NaN propagation, comparison with NaN false).
-/

/-- Model of the `f32` values exchanged with Godot: an exact rational,
positive infinity, or NaN.  Negative infinity is not needed by any of
the behaviours under study (weights and costs are non-negative). -/
inductive GFloat where
  | nan : GFloat
  | inf : GFloat
  | fin : ℚ → GFloat
deriving DecidableEq

/-- Addition of modelled floats: NaN propagates, infinity absorbs. -/
def GFloat.add : GFloat → GFloat → GFloat
  | .nan, _ => .nan
  | _, .nan => .nan
  | .inf, _ => .inf
  | _, .inf => .inf
  | .fin a, .fin b => .fin (a + b)

/-- Multiplication of modelled floats: NaN propagates, `inf * 0` is NaN
(as in IEEE), `inf * positive` is `inf`, `inf * negative` does not
occur on the non-negative domain in use and is mapped to NaN. -/
def GFloat.mul : GFloat → GFloat → GFloat
  | .nan, _ => .nan
  | _, .nan => .nan
  | .inf, .inf => .inf
  | .inf, .fin b => if 0 < b then .inf else .nan
  | .fin a, .inf => if 0 < a then .inf else .nan
  | .fin a, .fin b => .fin (a * b)

/-- Strict comparison of modelled floats: any comparison with NaN is
false, `inf` is above every finite value and not below itself. -/
def GFloat.lt : GFloat → GFloat → Bool
  | .nan, _ => false
  | _, .nan => false
  | .inf, _ => false
  | .fin _, .inf => true
  | .fin a, .fin b => decide (a < b)

/-- A modelled float is finite when it is neither NaN nor infinite. -/
def GFloat.isFinite : GFloat → Bool
  | .fin _ => true
  | _ => false

/-- Terrain tag of a point: the default sentinel or an explicit id
(`dijkstra_map::TerrainType`).  Modelled from the spec: "TerrainType:
either the sentinel Default or an explicit integer id." -/
inductive TerrainType where
  | defaultTerrain : TerrainType
  | terrain : Int → TerrainType
deriving DecidableEq

/-- Modelled from the spec: the core crate's conversion from an integer
id to a terrain tag, where `-1` denotes the default terrain (the
binding's docs: "`-1` correspond to the default terrain"). -/
def terrainFromInt (i : Int) : TerrainType :=
  if i = -1 then .defaultTerrain else .terrain i

/-- Association-list lookup (first matching key wins), the observable
behaviour of the hash maps used by the source. -/
def alookup {α β : Type} [DecidableEq α] : List (α × β) → α → Option β
  | [], _ => none
  | (k, v) :: rest, key => if k = key then some v else alookup rest key

/-- Association-list upsert: overwrite the first binding of the key, or
append a fresh binding, mirroring hash-map insert. -/
def aupsert {α β : Type} [DecidableEq α] : List (α × β) → α → β → List (α × β)
  | [], key, val => [(key, val)]
  | (k, v) :: rest, key, val =>
    if k = key then (k, val) :: rest else (k, v) :: aupsert rest key val

/-- Modelled from the spec: the per-call weight resolver.  "Default
always resolves to 1.0 irrespective of the table; any other terrain id
not present in the table resolves to an infinite (untraversable)
multiplier; a present entry uses its given value."  The terrain id `-1`
is the default terrain whichever constructor carries it (the binding
stores `Terrain(-1)` for default points yet its doctests traverse them
with an empty table). -/
def terrainMultiplier (tw : List (TerrainType × GFloat)) (t : TerrainType) : GFloat :=
  if t = .defaultTerrain ∨ t = .terrain (-1) then .fin 1
  else
    match alookup tw t with
    | some w => w
    | none => .inf

/-- Per-point record of the store: terrain tag and enabled flag.
Modelled from the spec: "has a terrain type and an enabled flag
(default enabled)". -/
structure PointData where
  terrain : TerrainType
  enabled : Bool
deriving DecidableEq

/-- One settled entry of the Results map: final cost and the direction
point.  Modelled from the spec: "Results: a mapping from point id to
(Cost, direction-point-id)". -/
structure ResInfo where
  cost : GFloat
  dir : Int
deriving DecidableEq

/-- The engine state: point store, directed weighted connections, and
the Results of the latest recalculation.  Modelled from the spec's data
model (id-indexed arena plus adjacency plus Results). -/
structure DijkstraMap where
  points : List (Int × PointData)
  connections : List ((Int × Int) × GFloat)
  results : List (Int × ResInfo)
deriving DecidableEq

/-- Search mode of a recalculation (`dijkstra_map::Read`): the supplied
points are destinations (edges walked in reverse during the search) or
origins (edges walked naturally). -/
inductive Read where
  | inputIsDestination : Read
  | inputIsOrigin : Read
deriving DecidableEq

/-- One frontier entry of the Dijkstra solve: candidate point,
tentative cost and recorded direction. -/
structure QEntry where
  point : Int
  cost : GFloat
  dir : Int
deriving DecidableEq

namespace Core

/-- The empty engine (`DijkstraMap::new`). -/
def emptyMap : DijkstraMap := ⟨[], [], []⟩

/-- Modelled from the spec: `has_point` is a pure membership test. -/
def has_point (m : DijkstraMap) (id : Int) : Bool :=
  (alookup m.points id).isSome

/-- Modelled from the spec: `add_point` fails with IdCollision when the
id is present, otherwise inserts an enabled point with the terrain. -/
def add_point (m : DijkstraMap) (id : Int) (t : TerrainType) : Option DijkstraMap :=
  if has_point m id then none
  else some { m with points := m.points ++ [(id, ⟨t, true⟩)] }

/-- Modelled from the spec: `connect_points` fails when either endpoint
is absent, otherwise upserts the directed weight source→target, and the
reverse direction too when bidirectional. -/
def connect_points (m : DijkstraMap) (s t : Int) (w : GFloat) (bidir : Bool) :
    Option DijkstraMap :=
  if has_point m s && has_point m t then
    let c1 := aupsert m.connections (s, t) w
    some { m with connections := if bidir then aupsert c1 (t, s) w else c1 }
  else none

/-- Modelled from the spec: `has_connection` tests the directed edge. -/
def has_connection (m : DijkstraMap) (s t : Int) : Bool :=
  (alookup m.connections (s, t)).isSome

/-- Ascending scan for the first free id at or after `n`, with enough
fuel to pass every occupied id. -/
def availAux (pts : List (Int × PointData)) : Nat → Nat → Nat
  | 0, n => n
  | fuel + 1, n =>
    if (alookup pts (n : Int)).isSome then availAux pts fuel (n + 1) else n

/-- Modelled from the spec: `get_available_id()` "returns the smallest
non-negative integer not currently used by any point (ascending scan
from 0)". -/
def get_available_id (pts : List (Int × PointData)) : Int :=
  (availAux pts (pts.length + 1) 0 : Int)

/-- Modelled from the spec: `cost_at(id)` returns the Results cost, or
+infinity when the id is absent or unsettled. -/
def get_cost_at_point (m : DijkstraMap) (p : Int) : GFloat :=
  match alookup m.results p with
  | some info => info.cost
  | none => .inf

/-- Modelled from the spec: `direction_at(id)` returns the Results
direction when settled (`None` otherwise; the binding substitutes the
`-1` sentinel). -/
def get_direction_at_point (m : DijkstraMap) (p : Int) : Option Int :=
  (alookup m.results p).map (fun info => info.dir)

/-- Neighbours explored from a settled point: along outgoing edges when
the inputs are origins, along incoming edges when the inputs are
destinations.  Modelled from the spec's search-mode duality. -/
def search_neighbors (conns : List ((Int × Int) × GFloat)) (read : Read) (u : Int) :
    List (Int × GFloat) :=
  match read with
  | .inputIsOrigin =>
    conns.filterMap (fun c => if c.1.1 = u then some (c.1.2, c.2) else none)
  | .inputIsDestination =>
    conns.filterMap (fun c => if c.1.2 = u then some (c.1.1, c.2) else none)

/-- First frontier entry with minimal cost (earlier entries win ties,
and NaN costs never displace an earlier candidate). -/
def minEntry : QEntry → List QEntry → QEntry
  | best, [] => best
  | best, e :: rest => minEntry (if GFloat.lt e.cost best.cost then e else best) rest

/-- Extract a minimal-cost entry from the frontier. -/
def popMin : List QEntry → Option (QEntry × List QEntry)
  | [] => none
  | e :: rest =>
    let m := minEntry e rest
    some (m, (e :: rest).erase m)

/-- Cost of the frontier entry for a point, if any. -/
def findCost : List QEntry → Int → Option GFloat
  | [], _ => none
  | e :: rest, p => if e.point = p then some e.cost else findCost rest p

/-- Drop every frontier entry for a point. -/
def removeFor (l : List QEntry) (p : Int) : List QEntry :=
  l.filter (fun e => e.point != p)

/-- Modelled from the spec: one relaxation.  A neighbour that is
missing, disabled, already settled, or reached through an edge whose
effective (terrain-scaled) cost is infinite or NaN is skipped; an
improving tentative cost replaces the neighbour's frontier entry with
the new cost and direction. -/
def relax_one (points : List (Int × PointData)) (mult : TerrainType → GFloat)
    (settled : List (Int × ResInfo)) (u : Int) (ucost : GFloat)
    (frontier : List QEntry) (edge : Int × GFloat) : List QEntry :=
  match alookup points edge.1 with
  | none => frontier
  | some pd =>
    if pd.enabled then
      let eff := GFloat.mul edge.2 (mult pd.terrain)
      if GFloat.isFinite eff then
        if (alookup settled edge.1).isSome then frontier
        else
          let nc := GFloat.add ucost eff
          match findCost frontier edge.1 with
          | none => frontier ++ [⟨edge.1, nc, u⟩]
          | some old =>
            if GFloat.lt nc old then removeFor frontier edge.1 ++ [⟨edge.1, nc, u⟩]
            else frontier
      else frontier
    else frontier

/-- Relax every neighbour of the freshly settled entry. -/
def relax_all (points : List (Int × PointData)) (conns : List ((Int × Int) × GFloat))
    (read : Read) (mult : TerrainType → GFloat) (settled : List (Int × ResInfo))
    (e : QEntry) (rest : List QEntry) : List QEntry :=
  (search_neighbors conns read e.point).foldl
    (relax_one points mult settled e.point e.cost) rest

/-- Modelled from the spec: the Dijkstra main loop.  Repeatedly extract
the minimum-cost entry; skip it when its point is already settled; stop
when its cost exceeds the ceiling; otherwise settle it, stop early once
every point of a non-empty termination set is settled, and relax its
neighbours. -/
def dijkstraLoop (points : List (Int × PointData)) (conns : List ((Int × Int) × GFloat))
    (read : Read) (mult : TerrainType → GFloat) (maxCost : GFloat) (term : List Int) :
    Nat → List QEntry → List (Int × ResInfo) → List (Int × ResInfo)
  | 0, _, settled => settled
  | fuel + 1, frontier, settled =>
    match popMin frontier with
    | none => settled
    | some (e, rest) =>
      if (alookup settled e.point).isSome then
        dijkstraLoop points conns read mult maxCost term fuel rest settled
      else if GFloat.lt maxCost e.cost then settled
      else
        let settled2 := settled ++ [(e.point, ⟨e.cost, e.dir⟩)]
        if (!term.isEmpty) && term.all (fun t => (alookup settled2 t).isSome) then
          settled2
        else
          dijkstraLoop points conns read mult maxCost term fuel
            (relax_all points conns read mult settled2 e rest) settled2

/-- Modelled from the spec: the initial frontier.  Each origin is
seeded at its position-aligned initial cost (default 0); unknown or
disabled origins are silently skipped; an origin's direction is
itself. -/
def seed_entries (points : List (Int × PointData)) (init : List GFloat) :
    List Int → Nat → List QEntry
  | [], _ => []
  | o :: rest, i =>
    (match alookup points o with
     | some pd =>
       if pd.enabled then [⟨o, init.getD i (GFloat.fin 0), o⟩] else []
     | none => []) ++ seed_entries points init rest (i + 1)

/-- Fuel that dominates the number of frontier extractions: every push
comes from a seed or from a relaxation of one of at most
`points.length` settlements over at most `connections.length` edges. -/
def recalcFuel (m : DijkstraMap) (origins : List Int) : Nat :=
  origins.length + (m.points.length + 1) * (m.connections.length + 1) + 1

/-- Modelled from the spec: `recalculate` performs one full
multi-source Dijkstra solve and replaces Results wholesale.  The search
mode defaults to inputs-as-destinations and the ceiling to infinity. -/
def recalculate (m : DijkstraMap) (origins : List Int) (read : Option Read)
    (maxCost : Option GFloat) (init : List GFloat)
    (tw : List (TerrainType × GFloat)) (term : List Int) : DijkstraMap :=
  { m with
    results :=
      dijkstraLoop m.points m.connections (read.getD .inputIsDestination)
        (terrainMultiplier tw) (maxCost.getD .inf) term
        (recalcFuel m origins) (seed_entries m.points init origins 0) [] }

/-- Step repeatedly through direction links, emitting each visited
point, stopping at a self-directed point (arrival), a missing entry, or
fuel exhaustion (the defensive bound). -/
def pathFollow (res : List (Int × ResInfo)) : Nat → Int → List Int
  | 0, _ => []
  | fuel + 1, cur =>
    match alookup res cur with
    | none => []
    | some info =>
      if info.dir = cur then []
      else info.dir :: pathFollow res fuel info.dir

/-- Modelled from the spec: `shortest_path_from(id)` follows direction
links, excludes the starting point, returns empty for an unreachable,
goal or unknown start, and bounds the iteration by the point count. -/
def get_shortest_path_from_point (m : DijkstraMap) (p : Int) : List Int :=
  pathFollow m.results m.points.length p

/-- `connect_points` forced to succeed (endpoints are known to exist);
used by the grid generator whose connections always join freshly added
points. -/
def connectD (m : DijkstraMap) (s t : Int) (w : GFloat) : DijkstraMap :=
  (connect_points m s t w true).getD m

/-- Allocate one point per cell of the bounded rectangle, in row-major
order, recording the mapping from coordinate to allocated id. -/
def gridAllocate (t : TerrainType) :
    List (Int × Int) → DijkstraMap → List ((Int × Int) × Int) →
    DijkstraMap × List ((Int × Int) × Int)
  | [], m, acc => (m, acc)
  | c :: rest, m, acc =>
    let id := get_available_id m.points
    let m2 := (add_point m id t).getD m
    gridAllocate t rest m2 (acc ++ [(c, id)])

/-- Connect one cell bidirectionally to each of its neighbours at the
given offsets that received a point, using the given weight. -/
def gridConnectCell (mapping : List ((Int × Int) × Int)) (offsets : List (Int × Int))
    (w : GFloat) (c : Int × Int) (id : Int) (m : DijkstraMap) : DijkstraMap :=
  offsets.foldl
    (fun acc off =>
      match alookup mapping (c.1 + off.1, c.2 + off.2) with
      | some nid => connectD acc id nid w
      | none => acc) m

/-- Connect every cell to its neighbours at the given offsets, unless
the weight for this whole edge class is infinite or NaN. -/
def gridConnect (mapping : List ((Int × Int) × Int)) (offsets : List (Int × Int))
    (w : GFloat) (m : DijkstraMap) : DijkstraMap :=
  if GFloat.isFinite w then
    mapping.foldl (fun acc kv => gridConnectCell mapping offsets w kv.1 kv.2 acc) m
  else m

/-- The four orthogonal neighbour offsets of a square-grid cell. -/
def orthoOffsets : List (Int × Int) := [(1, 0), (-1, 0), (0, 1), (0, -1)]

/-- The four diagonal neighbour offsets of a square-grid cell. -/
def diagOffsets : List (Int × Int) := [(1, 1), (1, -1), (-1, 1), (-1, -1)]

/-- The row-major list of cell coordinates of a `width × height`
rectangle positioned at `(xo, yo)`. -/
def gridCells (xo yo width height : Nat) : List (Int × Int) :=
  (List.range height).flatMap
    (fun y => (List.range width).map (fun x => ((xo + x : Int), (yo + y : Int))))

/-- Modelled from the spec: `square_grid` allocates a fresh id for each
cell of the rectangle via `get_available_id`, then connects each cell
bidirectionally to its orthogonal neighbours with `orthogonal_cost` and
to its diagonal neighbours with `diagonal_cost`, omitting an edge class
whose cost is infinite or NaN.  Returns the coordinate-to-id
mapping. -/
def add_square_grid (m : DijkstraMap) (width height xo yo : Nat) (t : TerrainType)
    (orthoCost diagCost : GFloat) : List ((Int × Int) × Int) × DijkstraMap :=
  let alloc := gridAllocate t (gridCells xo yo width height) m []
  let m2 := gridConnect alloc.2 orthoOffsets orthoCost alloc.1
  let m3 := gridConnect alloc.2 diagOffsets diagCost m2
  (alloc.2, m3)

end Core

/-- Outcome integer for success (`const OK: i64 = 0`). -/
def OK : Int := 0

/-- Outcome integer for failure (`const FAILED: i64 = 1`). -/
def FAILED : Int := 1

/-- Model of the Godot `Variant` values the binding inspects.  Only the
shapes the binding dispatches on are distinguished; `rect2` carries the
already-truncated `usize` components used by `variant_to_width_and_height`. -/
inductive Variant where
  | nil : Variant
  | bool : Bool → Variant
  | int : Int → Variant
  | float : GFloat → Variant
  | str : String → Variant
  | rect2 : Nat → Nat → Nat → Nat → Variant
  | intArray : List Int → Variant
  | floatArray : List GFloat → Variant
  | varArray : List Variant → Variant
  | dict : List (Variant × Variant) → Variant

/-- `Variant::try_to::<i64>()`: succeeds exactly on integer variants. -/
def tryToInt : Variant → Option Int
  | .int n => some n
  | _ => none

/-- `Variant::try_to::<bool>()`: succeeds exactly on boolean variants. -/
def tryToBool : Variant → Option Bool
  | .bool b => some b
  | _ => none

/-- `Variant::try_to::<f64>()`: succeeds exactly on float variants. -/
def tryToFloat : Variant → Option GFloat
  | .float f => some f
  | _ => none

/-- `variant_to_width_and_height`: only a `Rect2` yields the tuple
`(x_offset, y_offset, width, height)`. -/
def variant_to_width_and_height : Variant → Option (Nat × Nat × Nat × Nat)
  | .rect2 x y w h => some (x, y, w, h)
  | _ => none

namespace GD

/-- `add_point`: inserts with `TerrainType::Terrain(terrain_type)` (the
integer is wrapped verbatim, even `-1`) and maps the result to OK or
FAILED. -/
def add_point (m : DijkstraMap) (id t : Int) : Int × DijkstraMap :=
  match Core.add_point m id (.terrain t) with
  | some m2 => (OK, m2)
  | none => (FAILED, m)

/-- `connect_points`: forwards to the core and maps the result to an
outcome integer. -/
def connect_points (m : DijkstraMap) (s t : Int) (w : GFloat) (bidir : Bool) :
    Int × DijkstraMap :=
  match Core.connect_points m s t w bidir with
  | some m2 => (OK, m2)
  | none => (FAILED, m)

/-- `has_connection`: forwards to the core. -/
def has_connection (m : DijkstraMap) (s t : Int) : Bool :=
  Core.has_connection m s t

/-- `get_available_point_id`: forwards to the core scan. -/
def get_available_point_id (m : DijkstraMap) : Int :=
  Core.get_available_id m.points

/-- `get_cost_at_point`: forwards to the core (absent points read as
infinity already at the core level). -/
def get_cost_at_point (m : DijkstraMap) (p : Int) : GFloat :=
  Core.get_cost_at_point m p

/-- `get_direction_at_point`: the core's `None` becomes the `-1`
no-path sentinel (`unwrap_or(PointId(-1))`). -/
def get_direction_at_point (m : DijkstraMap) (p : Int) : Int :=
  (Core.get_direction_at_point m p).getD (-1)

/-- `get_cost_map`: dumps each settled point with its cost. -/
def get_cost_map (m : DijkstraMap) : List (Int × GFloat) :=
  m.results.map (fun pr => (pr.1, pr.2.cost))

/-- `get_shortest_path_from_point`: forwards to the core. -/
def get_shortest_path_from_point (m : DijkstraMap) (p : Int) : List Int :=
  Core.get_shortest_path_from_point m p

/-- The option keys `recalculate` recognises (`VALID_KEYS`). -/
def validKeysList : List String :=
  ["terrain_weights", "termination_points", "input_is_destination",
   "maximum_cost", "initial_costs"]

/-- The key-validation loop of `recalculate`: every key of
`optional_params` (keys are modelled by their `to_string` rendering)
must be recognised. -/
def valid_keys (params : List (String × Variant)) : Bool :=
  params.all (fun kv => decide (kv.1 ∈ validKeysList))

/-- The origin-parsing match of `recalculate`: an integer, a packed
int array, or an array whose non-integer elements are skipped with a
warning; any other shape is a failure. -/
def parse_origins : Variant → Option (List Int)
  | .int n => some [n]
  | .intArray xs => some xs
  | .varArray xs => some (xs.filterMap tryToInt)
  | _ => none

/-- The origin shapes `recalculate` accepts: an integer, a packed int
array, or an array. -/
def origin_type_ok : Variant → Bool
  | .int _ => true
  | .intArray _ => true
  | .varArray _ => true
  | _ => false

/-- The `"input_is_destination"` option: a boolean selects the search
mode, a malformed value is dropped with a warning (default applies). -/
def parse_read (params : List (String × Variant)) : Option Read :=
  match alookup params "input_is_destination" with
  | some v =>
    match tryToBool v with
    | some b => some (if b then .inputIsDestination else .inputIsOrigin)
    | none => none
  | none => none

/-- The `"maximum_cost"` option: a float sets the ceiling, a malformed
value is dropped with a warning (default applies). -/
def parse_max_cost (params : List (String × Variant)) : Option GFloat :=
  match alookup params "maximum_cost" with
  | some v => tryToFloat v
  | none => none

/-- The `"initial_costs"` option: a packed float array is taken as is,
an array coerces each element to a float (malformed elements become
0.0 with a warning), any other shape yields the empty list. -/
def parse_initial_costs (params : List (String × Variant)) : List GFloat :=
  match alookup params "initial_costs" with
  | some v =>
    match v with
    | .floatArray xs => xs
    | .varArray xs => xs.map (fun f => (tryToFloat f).getD (GFloat.fin 0))
    | _ => []
  | none => []

/-- One entry of the `"terrain_weights"` dictionary: an integer key is
inserted with its value coerced to a float, defaulting to 1.0 when the
coercion fails (`unwrap_or(1.0)`); a non-integer key is skipped with a
warning. -/
def tw_step (acc : List (TerrainType × GFloat)) (entry : Variant × Variant) :
    List (TerrainType × GFloat) :=
  match tryToInt entry.1 with
  | some id => aupsert acc (terrainFromInt id) ((tryToFloat entry.2).getD (GFloat.fin 1))
  | none => acc

/-- The `"terrain_weights"` option: a dictionary is folded entry by
entry, any other shape yields the empty table with a warning. -/
def parse_terrain_weights (params : List (String × Variant)) :
    List (TerrainType × GFloat) :=
  match alookup params "terrain_weights" with
  | some v =>
    match v with
    | .dict entries => entries.foldl tw_step []
    | _ => []
  | none => []

/-- The `"termination_points"` option: an integer, a packed int array,
or an array whose non-integer elements are skipped; any other shape
yields the empty set with a warning. -/
def parse_termination (params : List (String × Variant)) : List Int :=
  match alookup params "termination_points" with
  | some v =>
    match v with
    | .int n => [n]
    | .intArray xs => xs
    | .varArray xs => xs.filterMap tryToInt
    | _ => []
  | none => []

/-- `recalculate`: validate the option keys, parse the origins (both
failures return FAILED before touching any state), parse the options
(malformed values fall back to defaults with warnings), then run the
core solve, which replaces Results wholesale, and return OK. -/
def recalculate (m : DijkstraMap) (origin : Variant)
    (params : List (String × Variant)) : Int × DijkstraMap :=
  if valid_keys params then
    match parse_origins origin with
    | none => (FAILED, m)
    | some origins =>
      (OK,
        Core.recalculate m origins (parse_read params) (parse_max_cost params)
          (parse_initial_costs params) (parse_terrain_weights params)
          (parse_termination params))
  else (FAILED, m)

/-- `add_square_grid`: converts the bounds (anything but a `Rect2`
panics, modelled by `none`), passes the terrain through the integer
conversion, and returns the coordinate dictionary next to the updated
map. -/
def add_square_grid (m : DijkstraMap) (bounds : Variant) (t : Int)
    (orthoCost diagCost : GFloat) :
    Option (List ((Int × Int) × Int) × DijkstraMap) :=
  match variant_to_width_and_height bounds with
  | some (xo, yo, w, h) =>
    some (Core.add_square_grid m w h xo yo (terrainFromInt t) orthoCost diagCost)
  | none => none

end GD

/-- A seed of a recalculation call: `o` is an origin at some position
`i`, `c0` is the position-aligned initial cost (default 0), and `o` is
a present, enabled point — exactly the origins the solve does not
skip. -/
def SeedOf (points : List (Int × PointData)) (origins : List Int) (init : List GFloat)
    (o : Int) (c0 : GFloat) : Prop :=
  ∃ i : Nat, origins[i]? = some o ∧ c0 = init.getD i (GFloat.fin 0) ∧
    ∃ pd, alookup points o = some pd ∧ pd.enabled = true

/-- `RealCost … o c0 p c` holds when some traversable path of the
search walks from `o` (entered at cost `c0`) to `p` with accumulated
effective cost `c`: every step follows a search-mode edge into a
present, enabled point whose effective (terrain-scaled) cost is
finite. -/
inductive RealCost (points : List (Int × PointData)) (conns : List ((Int × Int) × GFloat))
    (read : Read) (mult : TerrainType → GFloat) (o : Int) (c0 : GFloat) :
    Int → GFloat → Prop where
  | refl : RealCost points conns read mult o c0 o c0
  | step {u : Int} {c : GFloat} {v : Int} {w : GFloat} {pd : PointData} :
    RealCost points conns read mult o c0 u c →
    (v, w) ∈ Core.search_neighbors conns read u →
    alookup points v = some pd →
    pd.enabled = true →
    GFloat.isFinite (GFloat.mul w (mult pd.terrain)) = true →
    RealCost points conns read mult o c0 v (GFloat.add c (GFloat.mul w (mult pd.terrain)))

/-- A point is reachable at cost `c` when some seed of the call admits
a traversable path to it of effective cost `c`.  The true shortest cost
of a point is the minimum of its reachable costs. -/
def Reach (points : List (Int × PointData)) (conns : List ((Int × Int) × GFloat))
    (read : Read) (mult : TerrainType → GFloat) (origins : List Int) (init : List GFloat)
    (p : Int) (c : GFloat) : Prop :=
  ∃ o c0, SeedOf points origins init o c0 ∧ RealCost points conns read mult o c0 p c

/-- The three-point scenario store of the spec: points 0, 1, 2 with one
bidirectional connection of weight 1.0 between 0 and 1, built through
the binding operations. -/
def c1Base : DijkstraMap :=
  let m1 := (GD.add_point Core.emptyMap 0 (-1)).2
  let m2 := (GD.add_point m1 1 (-1)).2
  let m3 := (GD.add_point m2 2 (-1)).2
  (GD.connect_points m3 0 1 (GFloat.fin 1) true).2

/-- The scenario store after `recalculate(0)` with default options. -/
def c1Map : DijkstraMap := (GD.recalculate c1Base (Variant.int 0) []).2

/-- Optional parameters supplying a finite cost ceiling, used to
witness the ceiling property on the scenario store. -/
def c2wParams : List (String × Variant) :=
  [("maximum_cost", Variant.float (GFloat.fin 100))]

/-- A store containing exactly the points 0 and 1. -/
def store01 : DijkstraMap :=
  (GD.add_point (GD.add_point Core.emptyMap 0 (-1)).2 1 (-1)).2

/-- The C8 grid scenario call: a 2-by-1 bounds rectangle on the empty
store, orthogonal cost 1.0, diagonal cost infinity. -/
def c8Call : Option (List ((Int × Int) × Int) × DijkstraMap) :=
  GD.add_square_grid Core.emptyMap (Variant.rect2 0 0 2 1) (-1) (GFloat.fin 1) GFloat.inf

/-- The store produced by the C8 grid scenario. -/
def c8Map : DijkstraMap :=
  match c8Call with
  | some r => r.2
  | none => Core.emptyMap

/-- The coordinate dictionary returned by the C8 grid scenario. -/
def c8Dict : List ((Int × Int) × Int) :=
  match c8Call with
  | some r => r.1
  | none => []

theorem alookup_mem {α β : Type} [DecidableEq α] {l : List (α × β)} {k : α} {v : β}
    (h : alookup l k = some v) : (k, v) ∈ l := by
  induction l with
  | nil => simp [alookup] at h
  | cons hd tl ih =>
    obtain ⟨k2, v2⟩ := hd
    by_cases hk : k2 = k
    · subst hk
      simp [alookup] at h
      simp [h]
    · simp [alookup, hk] at h
      exact List.mem_cons_of_mem _ (ih h)

theorem alookup_isSome_mem_keys {α β : Type} [DecidableEq α] {l : List (α × β)} {k : α}
    (h : (alookup l k).isSome) : k ∈ l.map Prod.fst := by
  obtain ⟨v, hv⟩ := Option.isSome_iff_exists.mp h
  exact List.mem_map.mpr ⟨(k, v), alookup_mem hv, rfl⟩

theorem alookup_aupsert_self {α β : Type} [DecidableEq α] (l : List (α × β)) (k : α) (v : β) :
    alookup (aupsert l k v) k = some v := by
  induction l with
  | nil => simp [alookup, aupsert]
  | cons hd tl ih =>
    obtain ⟨k2, v2⟩ := hd
    by_cases hk : k2 = k
    · simp [aupsert, alookup, hk]
    · simp [aupsert, alookup, hk, ih]

theorem alookup_aupsert_ne {α β : Type} [DecidableEq α] (l : List (α × β)) (k k2 : α) (v : β)
    (h : k2 ≠ k) : alookup (aupsert l k v) k2 = alookup l k2 := by
  induction l with
  | nil =>
    simp only [aupsert, alookup]
    rw [if_neg (Ne.symm h)]
  | cons hd tl ih =>
    obtain ⟨k3, v3⟩ := hd
    by_cases hk : k3 = k
    · subst hk
      rw [aupsert, if_pos rfl, alookup, alookup, if_neg (Ne.symm h), if_neg (Ne.symm h)]
    · simp only [aupsert, if_neg hk, alookup]
      by_cases hk2 : k3 = k2
      · rw [if_pos hk2, if_pos hk2]
      · rw [if_neg hk2, if_neg hk2, ih]

theorem minEntry_mem (b : QEntry) (l : List QEntry) : Core.minEntry b l ∈ b :: l := by
  induction l generalizing b with
  | nil => simp [Core.minEntry]
  | cons e rest ih =>
    rw [Core.minEntry]
    have h := ih (if GFloat.lt e.cost b.cost then e else b)
    rcases List.mem_cons.mp h with h1 | h1
    · rw [h1]
      by_cases hc : GFloat.lt e.cost b.cost <;> simp [hc]
    · exact List.mem_cons.mpr (Or.inr (List.mem_cons.mpr (Or.inr h1)))

theorem popMin_mem {l : List QEntry} {e : QEntry} {rest : List QEntry}
    (h : Core.popMin l = some (e, rest)) : e ∈ l := by
  cases l with
  | nil => simp [Core.popMin] at h
  | cons hd tl =>
    simp only [Core.popMin, Option.some.injEq, Prod.mk.injEq] at h
    rw [← h.1]
    exact minEntry_mem hd tl

theorem popMin_rest_mem {l : List QEntry} {e : QEntry} {rest : List QEntry}
    (h : Core.popMin l = some (e, rest)) : ∀ x ∈ rest, x ∈ l := by
  cases l with
  | nil => simp [Core.popMin] at h
  | cons hd tl =>
    simp only [Core.popMin, Option.some.injEq, Prod.mk.injEq] at h
    intro x hx
    rw [← h.2] at hx
    exact List.mem_of_mem_erase hx

theorem relax_one_inv (P : QEntry → Prop) (points : List (Int × PointData))
    (mult : TerrainType → GFloat) (settled : List (Int × ResInfo)) (u : Int)
    (ucost : GFloat) (frontier : List QEntry) (edge : Int × GFloat)
    (hf : ∀ x ∈ frontier, P x)
    (hnew : ∀ pd, alookup points edge.1 = some pd → pd.enabled = true →
      GFloat.isFinite (GFloat.mul edge.2 (mult pd.terrain)) = true →
      P ⟨edge.1, GFloat.add ucost (GFloat.mul edge.2 (mult pd.terrain)), u⟩) :
    ∀ x ∈ Core.relax_one points mult settled u ucost frontier edge, P x := by
  intro x hx
  rw [Core.relax_one] at hx
  cases hpd : alookup points edge.1 with
  | none => simp only [hpd] at hx; exact hf x hx
  | some pd =>
    simp only [hpd] at hx
    by_cases hen : pd.enabled
    · rw [if_pos hen] at hx
      by_cases hfin : GFloat.isFinite (GFloat.mul edge.2 (mult pd.terrain))
      · rw [if_pos hfin] at hx
        by_cases hset : (alookup settled edge.1).isSome
        · rw [if_pos hset] at hx
          exact hf x hx
        · rw [if_neg hset] at hx
          cases hfc : Core.findCost frontier edge.1 with
          | none =>
            simp only [hfc] at hx
            rcases List.mem_append.mp hx with h | h
            · exact hf x h
            · rw [List.mem_singleton.mp h]
              exact hnew pd hpd hen hfin
          | some old =>
            simp only [hfc] at hx
            by_cases hlt : GFloat.lt (GFloat.add ucost (GFloat.mul edge.2 (mult pd.terrain))) old
            · rw [if_pos hlt] at hx
              rcases List.mem_append.mp hx with h | h
              · exact hf x (List.mem_of_mem_filter h)
              · rw [List.mem_singleton.mp h]
                exact hnew pd hpd hen hfin
            · rw [if_neg hlt] at hx
              exact hf x hx
      · rw [if_neg hfin] at hx
        exact hf x hx
    · rw [if_neg hen] at hx
      exact hf x hx

theorem foldl_relax_inv (P : QEntry → Prop) (points : List (Int × PointData))
    (mult : TerrainType → GFloat) (settled : List (Int × ResInfo)) (u : Int)
    (ucost : GFloat) :
    ∀ (edges : List (Int × GFloat)) (frontier : List QEntry),
      (∀ x ∈ frontier, P x) →
      (∀ e ∈ edges, ∀ pd, alookup points e.1 = some pd → pd.enabled = true →
        GFloat.isFinite (GFloat.mul e.2 (mult pd.terrain)) = true →
        P ⟨e.1, GFloat.add ucost (GFloat.mul e.2 (mult pd.terrain)), u⟩) →
      ∀ x ∈ edges.foldl (Core.relax_one points mult settled u ucost) frontier, P x := by
  intro edges
  induction edges with
  | nil => intro frontier hf _ x hx; exact hf x hx
  | cons e es ih =>
    intro frontier hf hedges x hx
    rw [List.foldl_cons] at hx
    refine ih (Core.relax_one points mult settled u ucost frontier e) ?_ ?_ x hx
    · exact relax_one_inv P points mult settled u ucost frontier e hf
        (hedges e (List.mem_cons_self e es))
    · intro e2 he2
      exact hedges e2 (List.mem_cons_of_mem _ he2)

theorem relax_all_inv (P : QEntry → Prop) (points : List (Int × PointData))
    (conns : List ((Int × Int) × GFloat)) (read : Read) (mult : TerrainType → GFloat)
    (settled : List (Int × ResInfo)) (e : QEntry) (rest : List QEntry)
    (hf : ∀ x ∈ rest, P x)
    (hnew : ∀ v w pd, (v, w) ∈ Core.search_neighbors conns read e.point →
      alookup points v = some pd → pd.enabled = true →
      GFloat.isFinite (GFloat.mul w (mult pd.terrain)) = true →
      P ⟨v, GFloat.add e.cost (GFloat.mul w (mult pd.terrain)), e.point⟩) :
    ∀ x ∈ Core.relax_all points conns read mult settled e rest, P x := by
  rw [Core.relax_all]
  refine foldl_relax_inv P points mult settled e.point e.cost _ rest hf ?_
  intro ed hed pd hpd hen hfin
  exact hnew ed.1 ed.2 pd hed hpd hen hfin

theorem dijkstraLoop_inv (points : List (Int × PointData))
    (conns : List ((Int × Int) × GFloat)) (read : Read) (mult : TerrainType → GFloat)
    (maxCost : GFloat) (term : List Int) (P : Int → GFloat → Prop)
    (hstep : ∀ u c v w pd, P u c → (v, w) ∈ Core.search_neighbors conns read u →
      alookup points v = some pd → pd.enabled = true →
      GFloat.isFinite (GFloat.mul w (mult pd.terrain)) = true →
      P v (GFloat.add c (GFloat.mul w (mult pd.terrain)))) :
    ∀ (fuel : Nat) (frontier : List QEntry) (settled : List (Int × ResInfo)),
      (∀ x ∈ frontier, P x.point x.cost) →
      (∀ pr ∈ settled, P pr.1 pr.2.cost ∧ GFloat.lt maxCost pr.2.cost = false) →
      ∀ pr ∈ Core.dijkstraLoop points conns read mult maxCost term fuel frontier settled,
        P pr.1 pr.2.cost ∧ GFloat.lt maxCost pr.2.cost = false := by
  intro fuel
  induction fuel with
  | zero =>
    intro frontier settled hf hs
    rw [Core.dijkstraLoop]
    exact hs
  | succ n ih =>
    intro frontier settled hf hs pr hpr
    rw [Core.dijkstraLoop] at hpr
    split at hpr
    · exact hs pr hpr
    · rename_i e rest hpop
      have he : P e.point e.cost := hf e (popMin_mem hpop)
      have hrest : ∀ x ∈ rest, P x.point x.cost :=
        fun x hx => hf x (popMin_rest_mem hpop x hx)
      by_cases hsettled : (alookup settled e.point).isSome = true
      · rw [if_pos hsettled] at hpr
        exact ih rest settled hrest hs pr hpr
      · rw [if_neg hsettled] at hpr
        by_cases hceil : GFloat.lt maxCost e.cost = true
        · rw [if_pos hceil] at hpr
          exact hs pr hpr
        · rw [if_neg hceil] at hpr
          simp only [] at hpr
          have hceilf : GFloat.lt maxCost e.cost = false := by
            cases h2 : GFloat.lt maxCost e.cost
            · rfl
            · exact absurd h2 hceil
          have hs2 : ∀ pr2 ∈ settled ++ [(e.point, (⟨e.cost, e.dir⟩ : ResInfo))],
              P pr2.1 pr2.2.cost ∧ GFloat.lt maxCost pr2.2.cost = false := by
            intro pr2 hpr2
            rcases List.mem_append.mp hpr2 with h | h
            · exact hs pr2 h
            · rw [List.mem_singleton.mp h]
              exact ⟨he, hceilf⟩
          by_cases hterm : ((!(term.isEmpty)) &&
              term.all (fun t =>
                (alookup (settled ++ [(e.point, (⟨e.cost, e.dir⟩ : ResInfo))]) t).isSome)) = true
          · rw [if_pos hterm] at hpr
            exact hs2 pr hpr
          · rw [if_neg hterm] at hpr
            refine ih _ _ ?_ hs2 pr hpr
            refine relax_all_inv (fun x => P x.point x.cost) points conns read mult _ e rest
              hrest ?_
            intro v w pd hmem hpd hen hfin
            exact hstep e.point e.cost v w pd he hmem hpd hen hfin

theorem seed_entries_spec (points : List (Int × PointData)) (init : List GFloat) :
    ∀ (origins : List Int) (i : Nat) (x : QEntry),
      x ∈ Core.seed_entries points init origins i →
      ∃ j : Nat, origins[j]? = some x.point ∧ x.cost = init.getD (i + j) (GFloat.fin 0) ∧
        (∃ pd, alookup points x.point = some pd ∧ pd.enabled = true) ∧ x.dir = x.point := by
  intro origins
  induction origins with
  | nil => intro i x hx; simp [Core.seed_entries] at hx
  | cons o rest ih =>
    intro i x hx
    rw [Core.seed_entries] at hx
    rcases List.mem_append.mp hx with h | h
    · cases hpd : alookup points o with
      | none => simp only [hpd] at h; simp at h
      | some pd =>
        simp only [hpd] at h
        by_cases hen : pd.enabled = true
        · rw [if_pos hen] at h
          rw [List.mem_singleton.mp h]
          exact ⟨0, by simp, by simp, ⟨pd, hpd, hen⟩, rfl⟩
        · rw [if_neg hen] at h
          simp at h
    · obtain ⟨j, hj, hc, hpd, hd⟩ := ih (i + 1) x h
      refine ⟨j + 1, by simpa using hj, ?_, hpd, hd⟩
      rw [hc]
      congr 1
      omega

theorem recalculate_results_inv (m : DijkstraMap) (origins : List Int) (read : Option Read)
    (mc : Option GFloat) (init : List GFloat) (tw : List (TerrainType × GFloat))
    (term : List Int) :
    ∀ pr ∈ (Core.recalculate m origins read mc init tw term).results,
      Reach m.points m.connections (read.getD .inputIsDestination) (terrainMultiplier tw)
        origins init pr.1 pr.2.cost ∧
      GFloat.lt (mc.getD .inf) pr.2.cost = false := by
  intro pr hpr
  refine dijkstraLoop_inv m.points m.connections (read.getD .inputIsDestination)
    (terrainMultiplier tw) (mc.getD .inf) term
    (Reach m.points m.connections (read.getD .inputIsDestination) (terrainMultiplier tw)
      origins init) ?_ (Core.recalcFuel m origins)
    (Core.seed_entries m.points init origins 0) [] ?_ (by simp) pr hpr
  · intro u c v w pd hr hmem hpd hen hfin
    obtain ⟨o, c0, hseed, hrc⟩ := hr
    exact ⟨o, c0, hseed, RealCost.step hrc hmem hpd hen hfin⟩
  · intro x hx
    obtain ⟨j, hj, hc, hpd, hd⟩ := seed_entries_spec m.points init origins 0 x hx
    exact ⟨x.point, x.cost, ⟨j, hj, by simpa using hc, hpd⟩, RealCost.refl⟩

theorem reach_present {points : List (Int × PointData)} {conns : List ((Int × Int) × GFloat)}
    {read : Read} {mult : TerrainType → GFloat} {origins : List Int} {init : List GFloat}
    {p : Int} {c : GFloat}
    (h : Reach points conns read mult origins init p c) : (alookup points p).isSome = true := by
  obtain ⟨o, c0, ⟨i, _, _, pd, hpd, _⟩, hrc⟩ := h
  induction hrc with
  | refl => rw [hpd]; rfl
  | step _ _ hpd2 _ _ _ => rw [hpd2]; rfl

theorem gd_recalc_failed_state (s : DijkstraMap) (origin : Variant)
    (params : List (String × Variant))
    (h : (GD.recalculate s origin params).1 = FAILED) :
    (GD.recalculate s origin params).2 = s := by
  by_cases hv : GD.valid_keys params = true
  · cases ho : GD.parse_origins origin with
    | none => rw [GD.recalculate, if_pos hv, ho]
    | some origins =>
      rw [GD.recalculate, if_pos hv, ho] at h
      exact absurd h (by norm_num [OK, FAILED])
  · rw [GD.recalculate, if_neg hv]

theorem gd_recalc_ok_state (s : DijkstraMap) (origin : Variant)
    (params : List (String × Variant))
    (h : (GD.recalculate s origin params).1 = OK) :
    (GD.recalculate s origin params).2 =
      Core.recalculate s ((GD.parse_origins origin).getD []) (GD.parse_read params)
        (GD.parse_max_cost params) (GD.parse_initial_costs params)
        (GD.parse_terrain_weights params) (GD.parse_termination params) := by
  by_cases hv : GD.valid_keys params = true
  · cases ho : GD.parse_origins origin with
    | none =>
      rw [GD.recalculate, if_pos hv, ho] at h
      exact absurd h (by norm_num [OK, FAILED])
    | some origins =>
      rw [GD.recalculate, if_pos hv, ho, Option.getD_some]
  · rw [GD.recalculate, if_neg hv] at h
    exact absurd h (by norm_num [OK, FAILED])

theorem terrainFromInt_neg_one : terrainFromInt (-1) = .defaultTerrain := rfl

theorem terrainMultiplier_aupsert_default (tw : List (TerrainType × GFloat)) (v : GFloat) :
    terrainMultiplier (aupsert tw .defaultTerrain v) = terrainMultiplier tw := by
  funext t
  rw [terrainMultiplier, terrainMultiplier]
  by_cases hd : t = .defaultTerrain ∨ t = .terrain (-1)
  · rw [if_pos hd, if_pos hd]
  · rw [if_neg hd, if_neg hd]
    rw [alookup_aupsert_ne _ _ _ _ (fun e => hd (Or.inl e))]

/-- C6: in every recalculation, a point carrying the default terrain
(id `-1`, whether stored as the sentinel or as `Terrain(-1)`) is
traversed with multiplier 1.0 even when the supplied table carries an
entry for `-1` (which the binding inserts as a default-terrain entry,
`aupsert tw (terrainFromInt (-1)) v`), and the whole recalculation is
insensitive to that entry. -/
theorem c6_default_terrain_weight_one (tw : List (TerrainType × GFloat)) (v : GFloat) :
    terrainMultiplier (aupsert tw (terrainFromInt (-1)) v) (.terrain (-1)) = .fin 1 ∧
    terrainMultiplier (aupsert tw (terrainFromInt (-1)) v) .defaultTerrain = .fin 1 ∧
    ∀ (m : DijkstraMap) (origins : List Int) (read : Option Read) (mc : Option GFloat)
      (init : List GFloat) (term : List Int),
      Core.recalculate m origins read mc init (aupsert tw (terrainFromInt (-1)) v) term =
        Core.recalculate m origins read mc init tw term := by
  refine ⟨?_, ?_, ?_⟩
  · rw [terrainMultiplier, if_pos (Or.inr rfl)]
  · rw [terrainMultiplier, if_pos (Or.inl rfl)]
  · intro m origins read mc init term
    rw [Core.recalculate, Core.recalculate, terrainFromInt_neg_one,
      terrainMultiplier_aupsert_default]

/-- C1: on the store with points 0, 1, 2 and a bidirectional weight-1
connection between 0 and 1, `recalculate(0)` with default options
yields cost 0 at 0, cost 1 at 1, infinity at 2, direction 0 at 0 and 1,
and the no-path sentinel -1 at 2. -/
theorem c1_scenario_costs_and_directions :
    GD.get_cost_at_point c1Map 0 = GFloat.fin 0 ∧
    GD.get_cost_at_point c1Map 1 = GFloat.fin 1 ∧
    GD.get_cost_at_point c1Map 2 = GFloat.inf ∧
    GD.get_direction_at_point c1Map 0 = 0 ∧
    GD.get_direction_at_point c1Map 1 = 0 ∧
    GD.get_direction_at_point c1Map 2 = -1 := by
  with_unfolding_all decide

/-- C8: `add_square_grid` on the empty store with a 2-by-1 rectangle,
orthogonal cost 1.0 and diagonal cost infinity creates exactly the two
points 0 and 1, connected in both directions, with exactly the two
directed connection records of that single bidirectional pair (hence no
diagonal connections). -/
theorem c8_square_grid_two_by_one :
    c8Call.isSome = true ∧
    c8Map.points.map Prod.fst = [0, 1] ∧
    c8Map.connections.length = 2 ∧
    GD.has_connection c8Map 0 1 = true ∧
    GD.has_connection c8Map 1 0 = true ∧
    c8Dict = [((0, 0), 0), ((1, 0), 1)] := by
  with_unfolding_all decide

/-- C3: every `recalculate` call either reports FAILED and leaves the
whole state untouched, or reports OK and replaces the Results wholesale
with the core solve of the parsed call, leaving the graph unchanged. -/
theorem c3_recalculate_atomic (s : DijkstraMap) (origin : Variant)
    (params : List (String × Variant)) :
    ((GD.recalculate s origin params).1 = FAILED → (GD.recalculate s origin params).2 = s) ∧
    ((GD.recalculate s origin params).1 = OK →
      (GD.recalculate s origin params).2 =
        Core.recalculate s ((GD.parse_origins origin).getD []) (GD.parse_read params)
          (GD.parse_max_cost params) (GD.parse_initial_costs params)
          (GD.parse_terrain_weights params) (GD.parse_termination params) ∧
      ((GD.recalculate s origin params).2).points = s.points ∧
      ((GD.recalculate s origin params).2).connections = s.connections) ∧
    ((GD.recalculate s origin params).1 = OK ∨ (GD.recalculate s origin params).1 = FAILED) := by
  by_cases hv : GD.valid_keys params = true
  · cases ho : GD.parse_origins origin with
    | none =>
      have h1 : GD.recalculate s origin params = (FAILED, s) := by
        rw [GD.recalculate, if_pos hv, ho]
      rw [h1]
      exact ⟨fun _ => rfl, fun h => absurd h (by norm_num [OK, FAILED]), Or.inr rfl⟩
    | some origins =>
      have h1 : GD.recalculate s origin params =
          (OK, Core.recalculate s origins (GD.parse_read params) (GD.parse_max_cost params)
            (GD.parse_initial_costs params) (GD.parse_terrain_weights params)
            (GD.parse_termination params)) := by
        rw [GD.recalculate, if_pos hv, ho]
      rw [h1, Option.getD_some]
      refine ⟨fun h => absurd h (by norm_num [OK, FAILED]), fun _ => ⟨rfl, rfl, rfl⟩, Or.inl rfl⟩
  · have h1 : GD.recalculate s origin params = (FAILED, s) := by
      rw [GD.recalculate, if_neg hv]
    rw [h1]
    exact ⟨fun _ => rfl, fun h => absurd h (by norm_num [OK, FAILED]), Or.inr rfl⟩

/-- Witness for C3 at concrete inputs: a call with an unparsable origin
reports failure and leaves the scenario store untouched, and a
successful call on the scenario store replaces the Results with the
core solve. -/
theorem c3_witness :
    (GD.recalculate c1Base Variant.nil []).2 = c1Base ∧
    (GD.recalculate c1Base (Variant.int 0) []).2 =
      Core.recalculate c1Base [0] none none [] [] [] :=
  ⟨(c3_recalculate_atomic c1Base Variant.nil []).1 rfl,
   ((c3_recalculate_atomic c1Base (Variant.int 0) []).2.1 rfl).1⟩

/-- C5: repeating an identical `recalculate` call on the unchanged
store yields identical Results: the stored result set and both query
functions agree after the first and the second call. -/
theorem c5_recalculate_deterministic (s : DijkstraMap) (origin : Variant)
    (params : List (String × Variant)) (p : Int) :
    (GD.recalculate (GD.recalculate s origin params).2 origin params).2.results
      = (GD.recalculate s origin params).2.results ∧
    GD.get_cost_at_point (GD.recalculate (GD.recalculate s origin params).2 origin params).2 p
      = GD.get_cost_at_point (GD.recalculate s origin params).2 p ∧
    GD.get_direction_at_point
        (GD.recalculate (GD.recalculate s origin params).2 origin params).2 p
      = GD.get_direction_at_point (GD.recalculate s origin params).2 p := by
  have key : (GD.recalculate (GD.recalculate s origin params).2 origin params).2
      = (GD.recalculate s origin params).2 := by
    by_cases hv : GD.valid_keys params = true
    · cases ho : GD.parse_origins origin with
      | none =>
        have h1 : ∀ m : DijkstraMap, GD.recalculate m origin params = (FAILED, m) := by
          intro m
          rw [GD.recalculate, if_pos hv, ho]
        rw [h1, h1]
      | some origins =>
        have h1 : ∀ m : DijkstraMap, GD.recalculate m origin params =
            (OK, Core.recalculate m origins (GD.parse_read params) (GD.parse_max_cost params)
              (GD.parse_initial_costs params) (GD.parse_terrain_weights params)
              (GD.parse_termination params)) := by
          intro m
          rw [GD.recalculate, if_pos hv, ho]
        rw [h1, h1]
        rfl
    · have h1 : ∀ m : DijkstraMap, GD.recalculate m origin params = (FAILED, m) := by
        intro m
        rw [GD.recalculate, if_neg hv]
      rw [h1, h1]
  rw [key]
  exact ⟨rfl, rfl, rfl⟩

/-- C4 counterexample: `optional_params` binding the recognised key
`"maximum_cost"` to a non-float (string) value does not make the call
fail — it returns OK, refuting the claim that such a call reports
FAILED. -/
theorem c4_counterexample :
    (GD.recalculate Core.emptyMap (Variant.int 0)
      [("maximum_cost", Variant.str "oops")]).1 = OK ∧ OK ≠ FAILED := by
  exact ⟨rfl, by norm_num [OK, FAILED]⟩

/-- C4 amended: `recalculate` fails only for an unrecognised option key
or an origin of invalid shape; a recognised key bound to a malformed
value is dropped with a warning, its default applies, and the call
succeeds. -/
theorem c4_malformed_values_ignored (s : DijkstraMap) (origin : Variant)
    (params : List (String × Variant))
    (hkeys : ∀ kv ∈ params, kv.1 ∈ GD.validKeysList)
    (horigin : GD.origin_type_ok origin = true) :
    (GD.recalculate s origin params).1 = OK := by
  have hv : GD.valid_keys params = true := by
    rw [GD.valid_keys, List.all_eq_true]
    intro kv hkv
    exact decide_eq_true (hkeys kv hkv)
  rw [GD.recalculate, if_pos hv]
  cases origin with
  | int n => rfl
  | intArray xs => rfl
  | varArray xs => rfl
  | nil => simp [GD.origin_type_ok] at horigin
  | bool b => simp [GD.origin_type_ok] at horigin
  | float f => simp [GD.origin_type_ok] at horigin
  | str st => simp [GD.origin_type_ok] at horigin
  | rect2 a b c d => simp [GD.origin_type_ok] at horigin
  | floatArray xs => simp [GD.origin_type_ok] at horigin
  | dict entries => simp [GD.origin_type_ok] at horigin

/-- Witness for the amended C4: both recognised keys bound to malformed
values — a string for the float ceiling and an integer for the boolean
flag — still yield OK. -/
theorem c4_witness :
    (GD.recalculate Core.emptyMap (Variant.int 0)
      [("maximum_cost", Variant.str "oops"),
       ("input_is_destination", Variant.int 7)]).1 = OK :=
  c4_malformed_values_ignored Core.emptyMap (Variant.int 0) _ (by decide) rfl

theorem terrainFromInt_inj {a b : Int} (h : terrainFromInt a = terrainFromInt b) : a = b := by
  rw [terrainFromInt, terrainFromInt] at h
  by_cases ha : a = -1 <;> by_cases hb : b = -1
  · rw [ha, hb]
  · rw [if_pos ha, if_neg hb] at h
    exact absurd h (by simp)
  · rw [if_neg ha, if_pos hb] at h
    exact absurd h (by simp)
  · rw [if_neg ha, if_neg hb] at h
    injection h

theorem tw_fold_no_key (K : TerrainType) :
    ∀ (post : List (Variant × Variant)) (acc : List (TerrainType × GFloat)),
      (∀ e ∈ post, ∀ k2, tryToInt e.1 = some k2 → terrainFromInt k2 ≠ K) →
      alookup (post.foldl GD.tw_step acc) K = alookup acc K := by
  intro post
  induction post with
  | nil => intro acc _; rfl
  | cons e es ih =>
    intro acc hpost
    rw [List.foldl_cons]
    have step : alookup (GD.tw_step acc e) K = alookup acc K := by
      cases ht : tryToInt e.1 with
      | none => simp only [GD.tw_step, ht]
      | some k2 =>
        simp only [GD.tw_step, ht]
        exact alookup_aupsert_ne _ _ _ _
          (fun he => hpost e (List.mem_cons_self e es) k2 ht he.symm)
    rw [ih (GD.tw_step acc e) (fun x hx => hpost x (List.mem_cons_of_mem _ hx)), step]

/-- C10: when the `"terrain_weights"` dictionary holds an entry with an
integer key whose value cannot be converted to a float, the parsed
table used by the call silently binds that terrain to weight 1.0 (the
call neither fails nor drops the entry). -/
theorem c10_malformed_terrain_weight_defaults_one (params : List (String × Variant))
    (pre post : List (Variant × Variant)) (k : Int) (v : Variant)
    (hlook : alookup params "terrain_weights" =
      some (Variant.dict (pre ++ (Variant.int k, v) :: post)))
    (hv : tryToFloat v = none)
    (hpost : ∀ e ∈ post, ∀ k2, tryToInt e.1 = some k2 → k2 ≠ k) :
    alookup (GD.parse_terrain_weights params) (terrainFromInt k) = some (GFloat.fin 1) := by
  simp only [GD.parse_terrain_weights, hlook]
  rw [List.foldl_append, List.foldl_cons]
  rw [tw_fold_no_key (terrainFromInt k) post _
    (fun e he k2 ht hk => hpost e he k2 ht (terrainFromInt_inj hk))]
  simp only [GD.tw_step, tryToInt, hv, Option.getD_none]
  exact alookup_aupsert_self _ _ _

/-- Witness for C10: the dictionary `{5: "x"}` binds terrain 5 to
weight 1.0 in the parsed table. -/
theorem c10_witness :
    alookup (GD.parse_terrain_weights
      [("terrain_weights", Variant.dict [(Variant.int 5, Variant.str "x")])])
      (terrainFromInt 5) = some (GFloat.fin 1) :=
  c10_malformed_terrain_weight_defaults_one _ [] [] 5 (Variant.str "x") rfl rfl
    (by simp)

theorem availAux_spec (pts : List (Int × PointData)) :
    ∀ (fuel n : Nat), (∃ mm : Nat, n ≤ mm ∧ mm < n + fuel ∧ alookup pts (mm : Int) = none) →
      alookup pts ((Core.availAux pts fuel n : Nat) : Int) = none ∧
      n ≤ Core.availAux pts fuel n ∧
      ∀ j : Nat, n ≤ j → j < Core.availAux pts fuel n → (alookup pts (j : Int)).isSome = true := by
  intro fuel
  induction fuel with
  | zero =>
    intro n h
    obtain ⟨mm, h1, h2, _⟩ := h
    omega
  | succ f ih =>
    intro n h
    rw [Core.availAux]
    by_cases hn : (alookup pts (n : Int)).isSome = true
    · rw [if_pos hn]
      have hex : ∃ mm : Nat, n + 1 ≤ mm ∧ mm < (n + 1) + f ∧ alookup pts (mm : Int) = none := by
        obtain ⟨mm, h1, h2, h3⟩ := h
        refine ⟨mm, ?_, by omega, h3⟩
        rcases Nat.eq_or_lt_of_le h1 with he | hlt
        · rw [← he] at h3
          rw [h3] at hn
          exact absurd hn (by decide)
        · omega
      obtain ⟨ha, hb, hc⟩ := ih (n + 1) hex
      refine ⟨ha, by omega, ?_⟩
      intro j hj1 hj2
      rcases Nat.eq_or_lt_of_le hj1 with he | hlt
      · rw [← he]
        exact hn
      · exact hc j hlt hj2
    · rw [if_neg hn]
      refine ⟨?_, Nat.le_refl n, ?_⟩
      · cases halo : alookup pts (n : Int) with
        | none => rfl
        | some _ =>
          rw [halo] at hn
          exact absurd rfl hn
      · intro j hj1 hj2
        omega

theorem exists_free_id (pts : List (Int × PointData)) :
    ∃ mm : Nat, mm < pts.length + 1 ∧ alookup pts (mm : Int) = none := by
  by_contra hcon
  push_neg at hcon
  have hsub : ((List.range (pts.length + 1)).map (fun n : Nat => (n : Int))) ⊆
      pts.map Prod.fst := by
    intro x hx
    obtain ⟨n, hn, hnx⟩ := List.mem_map.mp hx
    rw [← hnx]
    exact alookup_isSome_mem_keys
      (Option.isSome_iff_ne_none.mpr (hcon n (List.mem_range.mp hn)))
  have hnd : ((List.range (pts.length + 1)).map (fun n : Nat => (n : Int))).Nodup :=
    (List.nodup_range _).map (fun a b hab => Int.natCast_inj.mp hab)
  have hle := (List.subperm_of_subset hnd hsub).length_le
  rw [List.length_map, List.length_range, List.length_map] at hle
  omega

/-- C9: `get_available_point_id` returns the smallest non-negative
integer not used by any present point — it is non-negative, unused
(never colliding with an existing point), and every smaller
non-negative id is in use — and on the store holding exactly the
points 0 and 1 it returns 2. -/
theorem c9_available_id_smallest :
    (∀ m : DijkstraMap,
      0 ≤ GD.get_available_point_id m ∧
      alookup m.points (GD.get_available_point_id m) = none ∧
      ∀ k : Int, 0 ≤ k → k < GD.get_available_point_id m →
        (alookup m.points k).isSome = true) ∧
    GD.get_available_point_id store01 = 2 := by
  constructor
  · intro m
    have hex : ∃ mm : Nat, 0 ≤ mm ∧ mm < 0 + (m.points.length + 1) ∧
        alookup m.points (mm : Int) = none := by
      obtain ⟨mm, h1, h2⟩ := exists_free_id m.points
      exact ⟨mm, Nat.zero_le _, by omega, h2⟩
    obtain ⟨ha, _, hc⟩ := availAux_spec m.points (m.points.length + 1) 0 hex
    rw [GD.get_available_point_id, Core.get_available_id]
    refine ⟨Int.natCast_nonneg _, ha, ?_⟩
    intro k hk1 hk2
    have hk : k = ((k.toNat : Nat) : Int) := (Int.toNat_of_nonneg hk1).symm
    rw [hk]
    refine hc k.toNat (Nat.zero_le _) ?_
    omega
  · with_unfolding_all decide

/-- Witness for C9 at a concrete store: on the store holding points 0
and 1 the returned id 2 is unused, while id 1 (non-negative and below
it) is in use. -/
theorem c9_witness :
    alookup store01.points (GD.get_available_point_id store01) = none ∧
    (alookup store01.points (1 : Int)).isSome = true :=
  ⟨(c9_available_id_smallest.1 store01).2.1,
   (c9_available_id_smallest.1 store01).2.2 1 (by decide)
     (by rw [c9_available_id_smallest.2]; decide)⟩

theorem alookup_map_cost (l : List (Int × ResInfo)) (p : Int) :
    alookup (l.map (fun pr => (pr.1, pr.2.cost))) p = (alookup l p).map ResInfo.cost := by
  induction l with
  | nil => rfl
  | cons hd tl ih =>
    obtain ⟨k, v⟩ := hd
    rw [List.map_cons]
    by_cases h : k = p
    · rw [alookup, alookup, if_pos h, if_pos h]
      rfl
    · rw [alookup, alookup, if_neg h, if_neg h]
      exact ih

/-- C2: after a successful `recalculate` call that supplies a
`"maximum_cost"` ceiling, a point whose every traversable path from the
seeded origins costs strictly more than the ceiling has no entry in the
stored Results or in `get_cost_map`, and reads back as infinite cost. -/
theorem c2_max_cost_excludes (s : DijkstraMap) (origin : Variant)
    (params : List (String × Variant)) (mc : GFloat) (p : Int)
    (hok : (GD.recalculate s origin params).1 = OK)
    (hmax : GD.parse_max_cost params = some mc)
    (hfar : ∀ c, Reach s.points s.connections
        ((GD.parse_read params).getD .inputIsDestination)
        (terrainMultiplier (GD.parse_terrain_weights params))
        ((GD.parse_origins origin).getD []) (GD.parse_initial_costs params) p c →
        GFloat.lt mc c = true) :
    alookup ((GD.recalculate s origin params).2).results p = none ∧
    GD.get_cost_at_point (GD.recalculate s origin params).2 p = GFloat.inf ∧
    alookup (GD.get_cost_map (GD.recalculate s origin params).2) p = none := by
  have hstate := gd_recalc_ok_state s origin params hok
  have hnone : alookup ((GD.recalculate s origin params).2).results p = none := by
    rw [hstate]
    cases hlk : alookup (Core.recalculate s ((GD.parse_origins origin).getD [])
        (GD.parse_read params) (GD.parse_max_cost params) (GD.parse_initial_costs params)
        (GD.parse_terrain_weights params) (GD.parse_termination params)).results p with
    | none => rfl
    | some info =>
      have hmem := alookup_mem hlk
      have hinv := recalculate_results_inv s ((GD.parse_origins origin).getD [])
        (GD.parse_read params) (GD.parse_max_cost params) (GD.parse_initial_costs params)
        (GD.parse_terrain_weights params) (GD.parse_termination params) (p, info) hmem
      have hflat : GFloat.lt mc info.cost = false := by
        have h2 := hinv.2
        rw [hmax, Option.getD_some] at h2
        exact h2
      have htrue := hfar info.cost hinv.1
      rw [hflat] at htrue
      exact Bool.noConfusion htrue
  refine ⟨hnone, ?_, ?_⟩
  · rw [GD.get_cost_at_point, Core.get_cost_at_point]
    simp only [hnone]
  · rw [GD.get_cost_map, alookup_map_cost, hnone]
    rfl

theorem c1Base_conns :
    c1Base.connections = [((0, 1), GFloat.fin 1), ((1, 0), GFloat.fin 1)] := rfl

theorem c2w_not_reach_two (mult : TerrainType → GFloat) (z : GFloat) :
    ∀ (q : Int) (c : GFloat),
      RealCost c1Base.points c1Base.connections .inputIsDestination mult 0 z q c →
      q ≠ 2 := by
  intro q c h
  induction h with
  | refl => decide
  | step hprev hmem hpd hen hfin ih =>
    rename_i u cc v w pd
    intro hv2
    subst hv2
    simp only [Core.search_neighbors] at hmem
    obtain ⟨entry, hin, hf⟩ := List.mem_filterMap.mp hmem
    rw [c1Base_conns] at hin
    simp only [List.mem_cons, List.mem_singleton, List.not_mem_nil, or_false] at hin
    rcases hin with h1 | h1
    · subst h1
      split at hf <;> simp at hf
    · subst h1
      split at hf <;> simp at hf

/-- Witness for C2: on the scenario store with ceiling 100, the
disconnected point 2 — every traversable path to it exceeds any
ceiling, vacuously — has no Results entry and reads back as infinite
cost. -/
theorem c2_witness :
    alookup ((GD.recalculate c1Base (Variant.int 0) c2wParams).2).results 2 = none ∧
    GD.get_cost_at_point (GD.recalculate c1Base (Variant.int 0) c2wParams).2 2 =
      GFloat.inf := by
  have h := c2_max_cost_excludes c1Base (Variant.int 0) c2wParams (GFloat.fin 100) 2
    rfl rfl ?hfar
  · exact ⟨h.1, h.2.1⟩
  case hfar =>
    intro c hreach
    obtain ⟨o, c0, ⟨i, hi, hc0, pd, hpd, hen⟩, hrc⟩ := hreach
    have hor : ((GD.parse_origins (Variant.int 0)).getD []) = [0] := rfl
    rw [hor] at hi
    have ho : o = 0 := by
      cases i with
      | zero => simpa using hi.symm
      | succ j => simp at hi
    subst ho
    have hread : (GD.parse_read c2wParams).getD Read.inputIsDestination =
        Read.inputIsDestination := rfl
    rw [hread] at hrc
    exact absurd rfl (c2w_not_reach_two _ c0 2 c hrc)

theorem pathFollow_head (res : List (Int × ResInfo)) (fuel : Nat) (cur b : Int)
    (l : List Int) (h : Core.pathFollow res fuel cur = b :: l) :
    ∃ ia, alookup res cur = some ia ∧ ia.dir = b ∧ b ≠ cur := by
  cases fuel with
  | zero => simp [Core.pathFollow] at h
  | succ f =>
    rw [Core.pathFollow] at h
    cases hlk : alookup res cur with
    | none =>
      simp only [hlk] at h
      exact List.noConfusion h
    | some info =>
      simp only [hlk] at h
      by_cases hd : info.dir = cur
      · rw [if_pos hd] at h
        exact List.noConfusion h
      · rw [if_neg hd] at h
        injection h with h1 h2
        refine ⟨info, rfl, h1, ?_⟩
        intro hbc
        exact hd (by rw [h1, hbc])

theorem pathFollow_chain (res : List (Int × ResInfo)) :
    ∀ (fuel : Nat) (cur : Int),
      List.Chain' (fun a b => ∃ ia, alookup res a = some ia ∧ ia.dir = b)
        (Core.pathFollow res fuel cur) := by
  intro fuel
  induction fuel with
  | zero =>
    intro cur
    rw [Core.pathFollow]
    exact List.chain'_nil
  | succ f ih =>
    intro cur
    rw [Core.pathFollow]
    cases hlk : alookup res cur with
    | none =>
      simp only [hlk]
      exact List.chain'_nil
    | some info =>
      simp only [hlk]
      by_cases hd : info.dir = cur
      · rw [if_pos hd]
        exact List.chain'_nil
      · rw [if_neg hd]
        cases hnext : Core.pathFollow res f info.dir with
        | nil => exact List.chain'_singleton _
        | cons b l =>
          refine List.chain'_cons.mpr ⟨?_, ?_⟩
          · obtain ⟨ia, h1, h2, _⟩ := pathFollow_head res f info.dir b l hnext
            exact ⟨ia, h1, h2⟩
          · have hch := ih info.dir
            rw [hnext] at hch
            exact hch

theorem shortest_path_empty_of_none (m : DijkstraMap) (p : Int)
    (h : alookup m.results p = none) : Core.get_shortest_path_from_point m p = [] := by
  rw [Core.get_shortest_path_from_point]
  cases m.points.length with
  | zero => rfl
  | succ f =>
    rw [Core.pathFollow]
    simp only [h]

/-- C7: `get_shortest_path_from_point` follows direction links — each
returned element is the direction of its predecessor, with the first
element the direction of the starting point itself (so the start is
excluded) — and returns the empty sequence when the point has no
Results entry (unreachable), when its own direction is itself (already
a goal), and, for the Results of any recalculation, when the point is
unknown to the store. -/
theorem c7_shortest_path_spec (m : DijkstraMap) (p : Int) :
    (alookup m.results p = none → Core.get_shortest_path_from_point m p = []) ∧
    (∀ info, alookup m.results p = some info → info.dir = p →
      Core.get_shortest_path_from_point m p = []) ∧
    (∀ b l, Core.get_shortest_path_from_point m p = b :: l →
      b ≠ p ∧ GD.get_direction_at_point m p = b) ∧
    List.Chain' (fun a b => ∃ ia, alookup m.results a = some ia ∧ ia.dir = b)
      (Core.get_shortest_path_from_point m p) ∧
    (∀ (s : DijkstraMap) (origins : List Int) (read : Option Read) (mc : Option GFloat)
      (init : List GFloat) (tw : List (TerrainType × GFloat)) (term : List Int),
      m = Core.recalculate s origins read mc init tw term → Core.has_point s p = false →
      Core.get_shortest_path_from_point m p = []) := by
  refine ⟨shortest_path_empty_of_none m p, ?_, ?_, ?_, ?_⟩
  · intro info hlk hdp
    rw [Core.get_shortest_path_from_point]
    cases m.points.length with
    | zero => rfl
    | succ f =>
      rw [Core.pathFollow]
      simp only [hlk]
      rw [if_pos hdp]
  · intro b l h
    rw [Core.get_shortest_path_from_point] at h
    obtain ⟨ia, h1, h2, h3⟩ := pathFollow_head m.results _ p b l h
    refine ⟨h3, ?_⟩
    rw [GD.get_direction_at_point, Core.get_direction_at_point, h1]
    simpa using h2
  · exact pathFollow_chain m.results _ p
  · intro s origins read mc init tw term hm hnp
    refine shortest_path_empty_of_none m p ?_
    cases hlk : alookup m.results p with
    | none => rfl
    | some info =>
      have hmem := alookup_mem hlk
      rw [hm] at hmem
      have hinv := recalculate_results_inv s origins read mc init tw term (p, info) hmem
      have hpres := reach_present hinv.1
      rw [Core.has_point] at hnp
      rw [hpres] at hnp
      exact Bool.noConfusion hnp

/-- Witness for C7 on the scenario store: the unsettled point 2 and the
goal point 0 both yield the empty path. -/
theorem c7_witness :
    Core.get_shortest_path_from_point c1Map 2 = [] ∧
    Core.get_shortest_path_from_point c1Map 0 = [] :=
  ⟨(c7_shortest_path_spec c1Map 2).1 (by with_unfolding_all decide),
   (c7_shortest_path_spec c1Map 0).2.1 ⟨GFloat.fin 0, 0⟩ (by with_unfolding_all decide) rfl⟩
